import Mathlib

/-!
Shallow embedding of the litecache concurrent TTL cache (Go) for
specification checking.

A shard stores a finite map from string keys to entries; Go's
`map[string]item[T]` is modelled as an association list with at most one
binding per key maintained by the insert operation.  Machine time
(`time.Now().UnixNano()`, an int64 nanosecond count) is modelled by an
explicit `now : Int` parameter captured once per operation, and a TTL
(`time.Duration`, int64 nanoseconds) by `ttl : Int`.  Stateful shard
methods become functions returning the new map together with the Go
return values.  `NoExpiration` is the int64 sentinel -1, as in cache.go.
-/

set_option autoImplicit false

namespace Litecache

/-- Entry stored for one key: `item[T]{value T; exp int64}` from shard.go.
Expiration `exp` is an absolute nanosecond instant; `exp ≤ 0` means the
entry never expires. -/
structure Item (α : Type) where
  value : α
  exp : Int
deriving DecidableEq, Repr

/-- The contents of one shard: Go's `map[string]item[T]`. -/
abbrev Items (α : Type) : Type := List (String × Item α)

/-- Map lookup, `itm, ok := s.items[key]`. -/
def lookupItem {α : Type} : Items α → String → Option (Item α)
  | [], _ => none
  | (k', it') :: rest, k => if k' = k then some it' else lookupItem rest k

/-- Map write, `s.items[key] = itm`: replaces the existing binding in
place or appends a fresh one. -/
def insertItem {α : Type} (m : Items α) (k : String) (it : Item α) : Items α :=
  match m with
  | [] => [(k, it)]
  | (k', it') :: rest =>
      if k' = k then (k, it) :: rest else (k', it') :: insertItem rest k it

/-- Map deletion, `delete(s.items, key)`. -/
def eraseItem {α : Type} (m : Items α) (k : String) : Items α :=
  m.filter (fun p => p.1 ≠ k)

/-- Expiration computed by the write paths of shard.go:
`exp := int64(-1); if ttl > 0 { exp = now + ttl }` (set), and identically
with the `NoExpiration = -1` sentinel in setNX/setEX. -/
def expOf (now ttl : Int) : Int :=
  if 0 < ttl then now + ttl else -1

/-- shard.get (shard.go:24-33): read-only; reports the raw map value and
`ok && !(exp > 0 && now > exp)`.  The map is returned unchanged because
the source body holds only the read lock and performs no map mutation. -/
def Shard.get {α : Type} (now : Int) (m : Items α) (key : String) :
    Items α × Option (Item α) × Bool :=
  match lookupItem m key with
  | none => (m, none, false)
  | some it =>
      if 0 < it.exp ∧ it.exp < now then (m, some it, false) else (m, some it, true)

/-- shard.set (shard.go:47-63): unconditional write, result true iff the
key had no prior binding. -/
def Shard.set {α : Type} (now : Int) (m : Items α) (key : String) (v : α)
    (ttl : Int) : Items α × Bool :=
  let added := (lookupItem m key).isNone
  (insertItem m key ⟨v, expOf now ttl⟩, added)

/-- shard.setNX (shard.go:80-98): fails when a binding exists with
`exp <= 0 || exp > now`; otherwise writes and succeeds. -/
def Shard.setNX {α : Type} (now : Int) (m : Items α) (key : String) (v : α)
    (ttl : Int) : Items α × Bool :=
  match lookupItem m key with
  | some it =>
      if it.exp ≤ 0 ∨ now < it.exp then (m, false)
      else (insertItem m key ⟨v, expOf now ttl⟩, true)
  | none => (insertItem m key ⟨v, expOf now ttl⟩, true)

/-- shard.setEX (shard.go:100-117): fails when the key is absent or the
binding has `exp > 0 && exp < now`; otherwise overwrites value and
expiration and succeeds. -/
def Shard.setEX {α : Type} (now : Int) (m : Items α) (key : String) (v : α)
    (ttl : Int) : Items α × Bool :=
  match lookupItem m key with
  | none => (m, false)
  | some it =>
      if 0 < it.exp ∧ it.exp < now then (m, false)
      else (insertItem m key ⟨v, expOf now ttl⟩, true)

/-- shard.transform (shard.go:65-78): fails when absent or
`exp > 0 && exp < now`; otherwise stores `effector(value)` under the
unchanged expiration. -/
def Shard.transform {α : Type} (now : Int) (m : Items α) (key : String)
    (effector : α → α) : Items α × Bool :=
  match lookupItem m key with
  | none => (m, false)
  | some it =>
      if 0 < it.exp ∧ it.exp < now then (m, false)
      else (insertItem m key ⟨effector it.value, it.exp⟩, true)

/-- shard.cleanExpired (shard.go:119-131): deletes every binding with
`exp > 0 && exp < now` and counts the deletions. -/
def Shard.cleanExpired {α : Type} (now : Int) : Items α → Items α × Nat
  | [] => ([], 0)
  | (k, it) :: rest =>
      let r := Shard.cleanExpired now rest
      if 0 < it.exp ∧ it.exp < now then (r.1, r.2 + 1) else ((k, it) :: r.1, r.2)

/-- shard.remove (shard.go:133-149): returns not-found when the key is
absent or when the binding has `exp > 0 && exp > now`; otherwise deletes
the binding and returns its value with true. -/
def Shard.remove {α : Type} (now : Int) (m : Items α) (key : String) :
    Items α × Option α × Bool :=
  match lookupItem m key with
  | none => (m, none, false)
  | some it =>
      if 0 < it.exp ∧ now < it.exp then (m, none, false)
      else (eraseItem m key, some it.value, true)

/-- Configuration, from the Config source file: the two fields the core
reads (`shards int`, `ttlChecksInterval time.Duration`); the optional
`onEvict` callback plays no role in the claims settled here. -/
structure Config where
  shards : Int
  ttlChecksInterval : Int
deriving DecidableEq, Repr

/-- Config.validate: errors iff `c.shards < 1`, with the wrapped
`ErrInvalidConfig` message. -/
def Config.validate (c : Config) : Option String :=
  if c.shards < 1 then some "invalid config: shards should be greater or equal to 1"
  else none

/-- Cache state (cache.go:13-18): the shard array, the routing mask
`uint64(cfg.shards - 1)` and the atomic approximate counter `len`.  The
hasher, a function field in Go, is passed to each routed operation. -/
structure Cache (α : Type) where
  shards : List (Items α)
  shardMask : Nat
  len : Int
deriving DecidableEq, Repr

/-- newWithConfig (cache.go:34-50): builds `cfg.shards` empty shards and
the mask `cfg.shards - 1`; the counter starts at zero.  The janitor it
starts is background sweeping only and is modelled separately by
`Shard.cleanExpired`. -/
def newWithConfig (α : Type) (cfg : Config) : Cache α :=
  { shards := List.replicate cfg.shards.toNat []
    shardMask := (cfg.shards - 1).toNat
    len := 0 }

/-- NewWithConfig (cache.go:26-32): validates first and returns the error
without constructing anything; otherwise defers to `newWithConfig`. -/
def NewWithConfig (α : Type) (cfg : Config) : Except String (Cache α) :=
  match cfg.validate with
  | some e => .error e
  | none => .ok (newWithConfig α cfg)

/-- Cache.getShard (cache.go:52-55) reduced to the computed index:
`hk & c.shardMask` for `hk := hasher.Hash(key)`. -/
def getShardIdx {α : Type} (hasher : String → Nat) (c : Cache α) (key : String) : Nat :=
  hasher key &&& c.shardMask

/-- Helper threading one shard operation through the cache the way every
cache.go method does: fetch `c.shards[idx]`, run the shard operation,
store the updated shard back. -/
def onShard {α β : Type} (hasher : String → Nat) (c : Cache α) (key : String)
    (op : Items α → Items α × β) : Cache α × β :=
  let i := getShardIdx hasher c key
  let r := op (c.shards.getD i [])
  ({ c with shards := c.shards.set i r.1 }, r.2)

/-- Cache.Set (cache.go:82-87): unconditional write with `NoExpiration`,
counter incremented when the shard reports an insert. -/
def Cache.Set {α : Type} (hasher : String → Nat) (now : Int) (c : Cache α)
    (key : String) (v : α) : Cache α :=
  let r := onShard hasher c key (fun s => Shard.set now s key v (-1))
  if r.2 then { r.1 with len := r.1.len + 1 } else r.1

/-- Cache.SetTtl (cache.go:91-96): as `Cache.Set` with a caller TTL. -/
def Cache.SetTtl {α : Type} (hasher : String → Nat) (now : Int) (c : Cache α)
    (key : String) (v : α) (ttl : Int) : Cache α :=
  let r := onShard hasher c key (fun s => Shard.set now s key v ttl)
  if r.2 then { r.1 with len := r.1.len + 1 } else r.1

/-- Cache.SetNx (cache.go:100-108): counter incremented on success. -/
def Cache.SetNx {α : Type} (hasher : String → Nat) (now : Int) (c : Cache α)
    (key : String) (v : α) : Cache α × Bool :=
  let r := onShard hasher c key (fun s => Shard.setNX now s key v (-1))
  if r.2 then ({ r.1 with len := r.1.len + 1 }, true) else (r.1, false)

/-- Cache.SetNxTtl (cache.go:113-120): counter incremented on success. -/
def Cache.SetNxTtl {α : Type} (hasher : String → Nat) (now : Int) (c : Cache α)
    (key : String) (v : α) (ttl : Int) : Cache α × Bool :=
  let r := onShard hasher c key (fun s => Shard.setNX now s key v ttl)
  if r.2 then ({ r.1 with len := r.1.len + 1 }, true) else (r.1, false)

/-- Cache.SetEx (cache.go:124-127): no counter bookkeeping at all. -/
def Cache.SetEx {α : Type} (hasher : String → Nat) (now : Int) (c : Cache α)
    (key : String) (v : α) : Cache α × Bool :=
  onShard hasher c key (fun s => Shard.setEX now s key v (-1))

/-- Cache.SetExTtl (cache.go:132-139): unlike `Cache.SetEx`, increments
the counter when the overwrite succeeds. -/
def Cache.SetExTtl {α : Type} (hasher : String → Nat) (now : Int) (c : Cache α)
    (key : String) (v : α) (ttl : Int) : Cache α × Bool :=
  let r := onShard hasher c key (fun s => Shard.setEX now s key v ttl)
  if r.2 then ({ r.1 with len := r.1.len + 1 }, true) else (r.1, false)

/-- Cache.Remove (cache.go:143-150): counter decremented when found. -/
def Cache.Remove {α : Type} (hasher : String → Nat) (now : Int) (c : Cache α)
    (key : String) : Cache α × Bool :=
  let r := onShard hasher c key (fun s => Shard.remove now s key)
  if r.2.2 then ({ r.1 with len := r.1.len - 1 }, true) else (r.1, false)

/-- Cache.GetAndRemove (cache.go:154-161): as `Cache.Remove`, also
reporting the removed value. -/
def Cache.GetAndRemove {α : Type} (hasher : String → Nat) (now : Int)
    (c : Cache α) (key : String) : Cache α × Option α × Bool :=
  let r := onShard hasher c key (fun s => Shard.remove now s key)
  if r.2.2 then ({ r.1 with len := r.1.len - 1 }, r.2) else (r.1, r.2)

/-- Cache.Count (cache.go:165-167): the approximate counter. -/
def Cache.Count {α : Type} (c : Cache α) : Int :=
  c.len

/-- Number of entries structurally present across all shards (what the
spec calls the exact structural count). -/
def structuralCount {α : Type} (c : Cache α) : Nat :=
  (c.shards.map List.length).sum

theorem lookup_insert_self {α : Type} (m : Items α) (k : String) (it : Item α) :
    lookupItem (insertItem m k it) k = some it := by
  induction m with
  | nil => simp [insertItem, lookupItem]
  | cons p rest ih =>
      obtain ⟨k', it'⟩ := p
      by_cases h : k' = k
      · simp [insertItem, lookupItem, h]
      · simp [insertItem, lookupItem, h, ih]

theorem lookup_insert_ne {α : Type} (m : Items α) (k q : String) (it : Item α)
    (hne : q ≠ k) : lookupItem (insertItem m k it) q = lookupItem m q := by
  have hkq : k ≠ q := fun h => hne h.symm
  induction m with
  | nil => simp [insertItem, lookupItem, hkq]
  | cons p rest ih =>
      obtain ⟨k', it'⟩ := p
      by_cases h : k' = k
      · subst h
        simp [insertItem, lookupItem, hkq]
      · by_cases hq : k' = q
        · subst hq
          simp [insertItem, lookupItem, h, lookupItem]
        · simp [insertItem, lookupItem, h, hq, ih]

/-- C1: the claim states that remove deletes an entry only when it is
present and not expired, and treats an expired-but-unswept entry as
not-found leaving the map untouched.  The guard at shard.go:142 reads
`itm.exp > now` instead of the expired test `itm.exp < now`, so the code
does the opposite on TTL entries: at now = 10 it deletes the expired
entry (exp = 5) returning its stale value with true, and it refuses to
delete the live entry (exp = 20), returning not-found. -/
theorem remove_guard_inverted :
    Shard.remove 10 [("k", Item.mk (7 : Nat) 5)] "k" = ([], some 7, true) ∧
    Shard.remove 10 [("k", Item.mk (7 : Nat) 20)] "k" =
      ([("k", Item.mk 7 20)], none, false) := by
  constructor <;> rfl

/-- C2: the claim states that a successful SetExTtl, which only
overwrites an existing live entry, leaves the approximate counter
unchanged.  Evaluating cache.go on a one-shard cache: Set("k", 1) at
time 0 then SetExTtl("k", 2, 100) at time 1 leaves exactly one entry
structurally present, yet Count() = 2, because Cache.SetExTtl
(cache.go:135) increments the counter on a successful overwrite while
its sibling Cache.SetEx does not. -/
theorem setExTtl_counter_drift :
    Cache.Count ((Cache.SetExTtl (fun _ => 0) 1
        (Cache.Set (fun _ => 0) 0 (Cache.mk [[]] 0 0) "k" (1 : Nat)) "k" 2 100).1) = 2 ∧
    structuralCount ((Cache.SetExTtl (fun _ => 0) 1
        (Cache.Set (fun _ => 0) 0 (Cache.mk [[]] 0 0) "k" (1 : Nat)) "k" 2 100).1) = 1 := by
  constructor <;> rfl

/-- C3 counterexample: the claim states that at the tie now = expiresAt
the entry is treated as expired, so get would report not-found.  With
the entry expiring exactly at instant 5, get at instant 5 reports the
entry as found: the comparison in shard.go:28 is strict. -/
theorem tie_get_found :
    ¬ (Shard.get 5 [("k", Item.mk (7 : Nat) 5)] "k").2.2 = false := by
  decide

/-- C3 (amended): at the tie now = expiresAt an entry with an expiration
set is treated as live (not expired) by get and by the sweeper, both of
which use the strict comparison expired iff now > expiresAt; remove,
whose guard is strict in the inverted direction (see C1), deletes the
entry at the tie and returns its value. -/
theorem tie_liveness (v : Nat) (e now : Int) (k : String) (he : e = now)
    (_hpos : 0 < e) :
    Shard.get now [(k, Item.mk v e)] k = ([(k, Item.mk v e)], some (Item.mk v e), true) ∧
    Shard.cleanExpired now [(k, Item.mk v e)] = ([(k, Item.mk v e)], 0) ∧
    Shard.remove now [(k, Item.mk v e)] k = ([], some v, true) := by
  subst he
  refine ⟨?_, ?_, ?_⟩ <;>
    simp [Shard.get, Shard.cleanExpired, Shard.remove, lookupItem, eraseItem,
      lt_irrefl]

/-- Witness for the amended C3 at v = 7, e = now = 5, k = "k". -/
theorem tie_liveness_w :
    Shard.get 5 [("k", Item.mk (7 : Nat) 5)] "k" =
      ([("k", Item.mk 7 5)], some (Item.mk 7 5), true) ∧
    Shard.cleanExpired 5 [("k", Item.mk (7 : Nat) 5)] = ([("k", Item.mk 7 5)], 0) ∧
    Shard.remove 5 [("k", Item.mk (7 : Nat) 5)] "k" = ([], some 7, true) :=
  tie_liveness 7 5 5 "k" rfl (by decide)

/-- C4: setIfAbsent (setNX) writes the entry and returns true iff the
key is absent or the existing entry has an expiration set (exp > 0) and
is expired at the call instant (exp ≤ now, the negation of the liveness
guard `exp <= 0 || exp > now` of shard.go:86); when a live entry exists,
including one with no expiration, it returns false and leaves the map
untouched. -/
theorem setNX_spec (α : Type) (now : Int) (m : Items α) (k : String) (v : α)
    (ttl : Int) :
    ((Shard.setNX now m k v ttl).2 = true ↔
      lookupItem m k = none ∨
        ∃ it, lookupItem m k = some it ∧ 0 < it.exp ∧ it.exp ≤ now) ∧
    ((Shard.setNX now m k v ttl).2 = false → Shard.setNX now m k v ttl = (m, false)) ∧
    ((Shard.setNX now m k v ttl).2 = true →
      (Shard.setNX now m k v ttl).1 = insertItem m k (Item.mk v (expOf now ttl)) ∧
      lookupItem (Shard.setNX now m k v ttl).1 k = some (Item.mk v (expOf now ttl))) := by
  cases h : lookupItem m k with
  | none =>
      have heq : Shard.setNX now m k v ttl =
          (insertItem m k (Item.mk v (expOf now ttl)), true) := by
        simp [Shard.setNX, h]
      rw [heq]
      exact ⟨by simp [h], by simp, fun _ => ⟨rfl, lookup_insert_self m k _⟩⟩
  | some it =>
      by_cases hl : it.exp ≤ 0 ∨ now < it.exp
      · have heq : Shard.setNX now m k v ttl = (m, false) := by
          simp [Shard.setNX, h, hl]
        rw [heq]
        refine ⟨?_, fun _ => rfl, fun hc => absurd hc (by simp)⟩
        simp only [h]
        constructor
        · intro hc; exact absurd hc (by simp)
        · rintro (hnone | ⟨it2, hit2, hpos, hle⟩)
          · exact absurd hnone (by simp)
          · injection hit2 with h2
            subst h2
            exact absurd hl (by omega)
      · have heq : Shard.setNX now m k v ttl =
            (insertItem m k (Item.mk v (expOf now ttl)), true) := by
          simp [Shard.setNX, h, hl]
        rw [heq]
        refine ⟨?_, by simp, fun _ => ⟨rfl, lookup_insert_self m k _⟩⟩
        simp only [h]
        exact ⟨fun _ => Or.inr ⟨it, rfl, by omega, by omega⟩, fun _ => by trivial⟩

/-- C5: setIfPresent (setEX) returns true and overwrites the entry with
the new value and freshly computed expiration iff an entry exists for
the key and is live at the call instant (the negation of the expired
test `exp > 0 && exp < now` of shard.go:106); when the key is absent or
its entry is expired it returns false and the map is unchanged, so in
particular no entry is created. -/
theorem setEX_spec (α : Type) (now : Int) (m : Items α) (k : String) (v : α)
    (ttl : Int) :
    ((Shard.setEX now m k v ttl).2 = true ↔
      ∃ it, lookupItem m k = some it ∧ ¬(0 < it.exp ∧ it.exp < now)) ∧
    ((Shard.setEX now m k v ttl).2 = false → Shard.setEX now m k v ttl = (m, false)) ∧
    ((Shard.setEX now m k v ttl).2 = true →
      (Shard.setEX now m k v ttl).1 = insertItem m k (Item.mk v (expOf now ttl)) ∧
      lookupItem (Shard.setEX now m k v ttl).1 k = some (Item.mk v (expOf now ttl))) := by
  cases h : lookupItem m k with
  | none =>
      have heq : Shard.setEX now m k v ttl = (m, false) := by
        simp [Shard.setEX, h]
      rw [heq]
      refine ⟨?_, fun _ => rfl, fun hc => absurd hc (by simp)⟩
      simp only [h]
      constructor
      · intro hc; exact absurd hc (by simp)
      · rintro ⟨it2, hit2, hlive⟩
        exact absurd hit2 (by simp)
  | some it =>
      by_cases he : 0 < it.exp ∧ it.exp < now
      · have heq : Shard.setEX now m k v ttl = (m, false) := by
          simp [Shard.setEX, h, he]
        rw [heq]
        refine ⟨?_, fun _ => rfl, fun hc => absurd hc (by simp)⟩
        simp only [h]
        constructor
        · intro hc; exact absurd hc (by simp)
        · rintro ⟨it2, hit2, hlive⟩
          injection hit2 with h2
          subst h2
          exact absurd he hlive
      · have heq : Shard.setEX now m k v ttl =
            (insertItem m k (Item.mk v (expOf now ttl)), true) := by
          simp [Shard.setEX, h, he]
        rw [heq]
        refine ⟨?_, by simp, fun _ => ⟨rfl, lookup_insert_self m k _⟩⟩
        simp only [h]
        exact ⟨fun _ => ⟨it, rfl, he⟩, fun _ => by trivial⟩

/-- C6: set always writes the entry, with expiresAt = now + ttl when
ttl > 0 and the never-expiring sentinel -1 otherwise; it returns true
iff the key had no binding before the call, so overwriting any existing
entry, including an expired unswept one, returns false; bindings of
other keys are untouched. -/
theorem set_spec (α : Type) (now : Int) (m : Items α) (k : String) (v : α)
    (ttl : Int) :
    (Shard.set now m k v ttl).1 = insertItem m k (Item.mk v (expOf now ttl)) ∧
    lookupItem (Shard.set now m k v ttl).1 k = some (Item.mk v (expOf now ttl)) ∧
    ((Shard.set now m k v ttl).2 = true ↔ lookupItem m k = none) ∧
    (∀ q, q ≠ k → lookupItem (Shard.set now m k v ttl).1 q = lookupItem m q) ∧
    (0 < ttl → expOf now ttl = now + ttl) ∧
    (ttl ≤ 0 → expOf now ttl = -1) := by
  refine ⟨rfl, lookup_insert_self m k _, ?_, ?_, ?_, ?_⟩
  · show (lookupItem m k).isNone = true ↔ lookupItem m k = none
    exact Option.isNone_iff_eq_none
  · exact fun q hq => lookup_insert_ne m k q _ hq
  · intro h
    simp [expOf, h]
  · intro h
    have hn : ¬ (0 < ttl) := by omega
    simp [expOf, hn]

/-- C7: transform on a key holding a live entry replaces the stored
value with effector(value) while leaving the stored expiration exactly
as it was (the TTL is not reset); on an absent or expired key it
returns false and writes nothing. -/
theorem transform_spec (α : Type) (now : Int) (m : Items α) (k : String)
    (effector : α → α) :
    (∀ it, lookupItem m k = some it → ¬(0 < it.exp ∧ it.exp < now) →
      Shard.transform now m k effector =
        (insertItem m k (Item.mk (effector it.value) it.exp), true) ∧
      lookupItem (Shard.transform now m k effector).1 k =
        some (Item.mk (effector it.value) it.exp)) ∧
    (lookupItem m k = none → Shard.transform now m k effector = (m, false)) ∧
    (∀ it, lookupItem m k = some it → 0 < it.exp ∧ it.exp < now →
      Shard.transform now m k effector = (m, false)) := by
  refine ⟨?_, ?_, ?_⟩
  · intro it hit hlive
    have : Shard.transform now m k effector =
        (insertItem m k (Item.mk (effector it.value) it.exp), true) := by
      simp [Shard.transform, hit, hlive]
    exact ⟨this, by rw [this]; exact lookup_insert_self m k _⟩
  · intro hnone
    simp [Shard.transform, hnone]
  · intro it hit hexp
    simp [Shard.transform, hit, hexp]

/-- C8: get reports not-found exactly when the key is absent or its
entry has an expiration set that has strictly passed, and it returns the
map unchanged in every case: a lazily expired entry is still
structurally present after the read. -/
theorem get_spec (α : Type) (now : Int) (m : Items α) (k : String) :
    (Shard.get now m k).1 = m ∧
    ((Shard.get now m k).2.2 = false ↔
      lookupItem m k = none ∨
        ∃ it, lookupItem m k = some it ∧ 0 < it.exp ∧ it.exp < now) := by
  cases h : lookupItem m k with
  | none =>
      have heq : Shard.get now m k = (m, none, false) := by
        simp [Shard.get, h]
      rw [heq]
      exact ⟨rfl, by simp [h]⟩
  | some it =>
      by_cases he : 0 < it.exp ∧ it.exp < now
      · have heq : Shard.get now m k = (m, some it, false) := by
          simp [Shard.get, h, he]
        rw [heq]
        refine ⟨rfl, ?_⟩
        simp only [h]
        exact ⟨fun _ => Or.inr ⟨it, rfl, he⟩, fun _ => by trivial⟩
      · have heq : Shard.get now m k = (m, some it, true) := by
          simp [Shard.get, h, he]
        rw [heq]
        refine ⟨rfl, ?_⟩
        simp only [h]
        constructor
        · intro hc; exact absurd hc (by simp)
        · rintro (hnone | ⟨it2, hit2, hexp⟩)
          · exact absurd hnone (by simp)
          · injection hit2 with h2
            subst h2
            exact absurd hexp he

/-- C9: construction through NewWithConfig returns the configuration
error exactly when the configured shard count is below 1, in which case
only the error message is produced and no cache value is constructed;
for every shard count ≥ 1 it succeeds with the cache newWithConfig
builds. -/
theorem newWithConfig_validation (cfg : Config) :
    ((∃ e, NewWithConfig Nat cfg = .error e) ↔ cfg.shards < 1) ∧
    (cfg.shards < 1 →
      NewWithConfig Nat cfg =
        .error "invalid config: shards should be greater or equal to 1") ∧
    (1 ≤ cfg.shards → NewWithConfig Nat cfg = .ok (newWithConfig Nat cfg)) := by
  by_cases h : cfg.shards < 1
  · refine ⟨?_, fun _ => ?_, fun hc => absurd hc (by omega)⟩
    · simp [NewWithConfig, Config.validate, h]
    · simp [NewWithConfig, Config.validate, h]
  · refine ⟨?_, fun hc => absurd hc h, fun _ => ?_⟩
    · simp [NewWithConfig, Config.validate, h]
    · simp [NewWithConfig, Config.validate, h]

/-- C10: for every hasher, every configured shard count n ≥ 1 (power of
two or not) and every key, the index hash(key) AND (n - 1) computed by
getShard on the cache built by newWithConfig is strictly below the
length of the shard array, and the index depends only on the hash of the
key. -/
theorem getShard_routing (α : Type) (hasher : String → Nat) (cfg : Config)
    (h1 : 1 ≤ cfg.shards) (key : String) :
    getShardIdx hasher (newWithConfig α cfg) key <
      (newWithConfig α cfg).shards.length ∧
    ∀ key2, hasher key2 = hasher key →
      getShardIdx hasher (newWithConfig α cfg) key2 =
        getShardIdx hasher (newWithConfig α cfg) key := by
  constructor
  · show hasher key &&& (cfg.shards - 1).toNat < (List.replicate cfg.shards.toNat ([] : Items α)).length
    rw [List.length_replicate]
    exact lt_of_le_of_lt Nat.and_le_right (by omega)
  · intro key2 h
    simp [getShardIdx, h]

/-- Witness for C10 at a non-power-of-two shard count 5 and hash 11. -/
theorem getShard_routing_w :
    getShardIdx (fun _ => 11) (newWithConfig Nat (Config.mk 5 1000)) "a" <
      (newWithConfig Nat (Config.mk 5 1000)).shards.length :=
  (getShard_routing Nat (fun _ => 11) (Config.mk 5 1000) (by decide) "a").1

end Litecache
